import Mathlib

/-
Verification of the scenarigo template engine, reporter summary and gRPC
expectation code against its specification.

The definitions below are a shallow embedding of the Go source:

* `template` package (template evaluation: `Template.Execute`, `executeExpr`,
  `executeBasicLit`, `executeParameterExpr`, `executeUnaryExpr`,
  `executeBinaryExpr`, `executeConditionalExpr`, `executeDefinedExpr`,
  `Template.addIndent`, `funcStash.save`);
* `reporter` package (`testSummary.append`, `testSummary.String`,
  `testSummary.failedFiles`);
* `protocol/grpc` package (`Expect.assertStatusCode`).

Machine integers are modelled as `Int` with explicit bounds checks exactly as
written in the source; Go's truncated integer division is `Int.tdiv`/`Int.tmod`.
Host data values are the inductive `Value`; user-supplied functions are opaque
behaviours (`FuncRes`) that can return a value, return an error, or panic, which
is all the evaluator observes of them.  Go panics are a distinguished outcome
(`Outcome.panicked`) that propagates until the `recover` in `Template.Execute`
converts it into an ordinary error, exactly as the source's deferred handler
does.  Float values are outside this embedding (IEEE semantics), as are
reflection-specific details (pointer transparency, method auto-addressing).
-/

namespace Scenarigo

/-- Widths of Go's signed integer kinds (`reflect.Int` .. `reflect.Int64`).
Go's `int` is 64-bit on the platforms the source targets. -/
inductive IntW where
  | i | i8 | i16 | i32 | i64
deriving DecidableEq, Repr

/-- Widths of Go's unsigned integer kinds (`reflect.Uint` .. `reflect.Uint64`). -/
inductive UintW where
  | u | u8 | u16 | u32 | u64
deriving DecidableEq, Repr

mutual
/-- A host value of the data tree handed to `Execute`: the dynamic values the
evaluator dispatches on.  Numbers carry their Go kind (width); `vMap` is an
ordered mapping with string keys; `vFunc` is a user-supplied function value
whose observable behaviour is a `FuncRes`. -/
inductive Value where
  | vNil
  | vBool (b : Bool)
  | vInt (w : IntW) (n : Int)
  | vUint (w : UintW) (n : Int)
  | vStr (s : String)
  | vBytes (bs : List Nat)
  | vMap (entries : List (String × Value))
  | vList (elems : List Value)
  | vFunc (res : FuncRes)
deriving Repr

/-- Observable behaviour of a user-supplied function when called: it returns a
value, returns a non-nil error, or panics. -/
inductive FuncRes where
  | ret (v : Value)
  | failWith (m : String)
  | panicsWith (m : String)
deriving Repr
end

/-- An evaluation error.  `notDefined` models the distinguished
`errNotDefined` kind that `errors.As` can observe in `executeDefinedExpr`;
`errMsg` is every other error.  Wrapping with `fmt.Errorf("...: %w", err)` or
`errors.Wrapf` preserves the kind (the chain stays visible to `errors.As`),
so the wrap helpers below keep the constructor and extend the message. -/
inductive Err where
  | notDefined (m : String)
  | errMsg (m : String)
deriving DecidableEq, Repr

/-- Prefix an error's message, keeping its kind: models `fmt.Errorf(p ++ "%w")`. -/
def Err.wrapPre (p : String) : Err → Err
  | .notDefined m => .notDefined (p ++ m)
  | .errMsg m => .errMsg (p ++ m)

/-- `errors.Wrapf(err, fmt, ...)`: the rendered message is the formatted text,
a colon and a space, then the cause; the kind stays observable. -/
def Err.wrapf (p : String) (e : Err) : Err := e.wrapPre (p ++ ": ")

/-- Result of running a piece of the evaluator: a value, an ordinary error, or
a Go panic unwinding the stack. -/
inductive Outcome (α : Type) where
  | ok (a : α)
  | fail (e : Err)
  | panicked (m : String)
deriving DecidableEq, Repr

/-- Whether an outcome is a propagating panic. -/
def Outcome.isPanicked {α : Type} : Outcome α → Bool
  | .panicked _ => true
  | _ => false

/-- Literal kinds of `ast.BasicLit` that the embedding covers (`token.STRING`,
`token.INT`, `token.BOOL`; float literals are outside the embedding). -/
inductive LitKind where
  | str | int | bool
deriving DecidableEq, Repr

/-- Unary operators (`token.SUB`, `token.NOT`). -/
inductive UnOp where
  | sub | not
deriving DecidableEq, Repr

/-- Binary operators of `ast.BinaryExpr`. -/
inductive BinOp where
  | add | sub | mul | quo | rem
  | eql | neq | lss | leq | gtr | geq
  | land | lor
deriving DecidableEq, Repr

/-- The expression tree (`template/ast`).  `indexE` carries the index as an
integer, modelling the spec's 0-based integer index lookup for `IndexExpr`;
`param` is `ast.ParameterExpr` with its optional inner expression and the
`Quoted` flag; `definedE` is `ast.DefinedExpr`. -/
inductive Expr where
  | basicLit (kind : LitKind) (value : String)
  | ident (name : String)
  | selector (x : Expr) (sel : String)
  | indexE (x : Expr) (idx : Int)
  | param (x : Option Expr) (quoted : Bool)
  | paren (x : Expr)
  | unary (op : UnOp) (x : Expr)
  | binary (x : Expr) (op : BinOp) (y : Expr)
  | condE (c x y : Expr)
  | call (fn : Expr) (args : List Expr)
  | definedE (arg : Expr)
deriving Repr

/-- `reflect.Kind` restricted to the kinds a `Value` can have.  Byte sequences
and generic sequences are both `kSlice`, as in Go (`[]byte` and
`[]interface{}` are both `reflect.Slice`). -/
inductive RKind where
  | invalid
  | kInt (w : IntW)
  | kUint (w : UintW)
  | kBool
  | kString
  | kSlice
  | kMap
  | kFunc
deriving DecidableEq, Repr

def Value.kind : Value → RKind
  | .vNil => .invalid
  | .vBool _ => .kBool
  | .vInt w _ => .kInt w
  | .vUint w _ => .kUint w
  | .vStr _ => .kString
  | .vBytes _ => .kSlice
  | .vList _ => .kSlice
  | .vMap _ => .kMap
  | .vFunc _ => .kFunc

/-- True exactly when the value's (pointer-dereferenced) kind is `reflect.Func`,
the test `reflectutil.Elem(reflect.ValueOf(v)).Kind() == reflect.Func` of
`executeParameterExpr`. -/
def Value.isFuncVal : Value → Bool
  | .vFunc _ => true
  | _ => false

def IntW.goName : IntW → String
  | .i => "int"
  | .i8 => "int8"
  | .i16 => "int16"
  | .i32 => "int32"
  | .i64 => "int64"

def UintW.goName : UintW → String
  | .u => "uint"
  | .u8 => "uint8"
  | .u16 => "uint16"
  | .u32 => "uint32"
  | .u64 => "uint64"

/-- The Go type name of a value as `%T` prints it.  The name printed for a
function value depends on its Go signature, which the embedding abstracts. -/
def Value.goTypeName : Value → String
  | .vNil => "<nil>"
  | .vBool _ => "bool"
  | .vInt w _ => w.goName
  | .vUint w _ => w.goName
  | .vStr _ => "string"
  | .vBytes _ => "[]uint8"
  | .vList _ => "[]interface \x7b\x7d"
  | .vMap _ => "map[string]interface \x7b\x7d"
  | .vFunc _ => "func"

/-- The rendering of a value by `%#v` in error messages.  Numbers and booleans
print their value; strings print quoted.  Composite values have a more verbose
Go-syntax rendering that no claim depends on; they are abbreviated here. -/
def Value.goShow : Value → String
  | .vNil => "<nil>"
  | .vBool b => if b then "true" else "false"
  | .vInt _ n => toString n
  | .vUint _ n => toString n
  | .vStr s => "\"" ++ s ++ "\""
  | .vBytes _ => "[]byte\x7b...\x7d"
  | .vList _ => "[]interface \x7b\x7d\x7b...\x7d"
  | .vMap _ => "map[string]interface \x7b\x7d\x7b...\x7d"
  | .vFunc _ => "(func)(...)"

/-- The operator text as `token.Token`'s `String` prints it in error messages. -/
def BinOp.goStr : BinOp → String
  | .add => "+"
  | .sub => "-"
  | .mul => "*"
  | .quo => "/"
  | .rem => "%"
  | .eql => "=="
  | .neq => "!="
  | .lss => "<"
  | .leq => "<="
  | .gtr => ">"
  | .geq => ">="
  | .land => "&&"
  | .lor => "||"

def UnOp.goStr : UnOp → String
  | .sub => "-"
  | .not => "!"

def maxI64 : Int := 9223372036854775807
def minI64 : Int := -9223372036854775808
def maxU64 : Int := 18446744073709551615

def IntW.minVal : IntW → Int
  | .i => minI64
  | .i8 => -128
  | .i16 => -32768
  | .i32 => -2147483648
  | .i64 => minI64

def IntW.maxVal : IntW → Int
  | .i => maxI64
  | .i8 => 127
  | .i16 => 32767
  | .i32 => 2147483647
  | .i64 => maxI64

/-- A well-formed Go value of signed width `w` holds an integer in its range. -/
def IntW.inRange (w : IntW) (n : Int) : Prop := w.minVal ≤ n ∧ n ≤ w.maxVal

instance (w : IntW) (n : Int) : Decidable (w.inRange n) := by
  unfold IntW.inRange; infer_instance

/-! ## strconv.ParseInt

`executeBasicLit` parses integer literals with `strconv.ParseInt(v, 0, 64)`:
optional sign, base detection (`0x`/`0X` hex, `0o`/`0O` octal, `0b`/`0B`
binary, a leading `0` legacy octal), then digits, with the value checked
against the 64-bit signed range.  Digit-group underscores are not modelled. -/

def digitVal (c : Char) : Option Nat :=
  if '0' ≤ c ∧ c ≤ '9' then some (c.toNat - '0'.toNat)
  else if 'a' ≤ c ∧ c ≤ 'z' then some (c.toNat - 'a'.toNat + 10)
  else if 'A' ≤ c ∧ c ≤ 'Z' then some (c.toNat - 'A'.toNat + 10)
  else none

def parseDigits (base : Nat) : List Char → Option Nat → Option Nat
  | [], acc => acc
  | c :: rest, acc =>
    match acc, digitVal c with
    | some a, some d => if d < base then parseDigits base rest (some (a * base + d)) else none
    | _, _ => none

/-- `strconv.ParseInt(s, 0, 64)`.  On failure the message is the `NumError`
rendering.  A value of `2 ^ 63` is in range only when negated. -/
def parseIntGo (s : String) : Except String Int :=
  let invalid : Except String Int :=
    .error ("strconv.ParseInt: parsing \"" ++ s ++ "\": invalid syntax")
  let outOfRange : Except String Int :=
    .error ("strconv.ParseInt: parsing \"" ++ s ++ "\": value out of range")
  let (neg, rest) : Bool × List Char :=
    match s.data with
    | '+' :: r => (false, r)
    | '-' :: r => (true, r)
    | r => (false, r)
  let (base, digits) : Nat × List Char :=
    match rest with
    | '0' :: 'x' :: r => (16, r)
    | '0' :: 'X' :: r => (16, r)
    | '0' :: 'o' :: r => (8, r)
    | '0' :: 'O' :: r => (8, r)
    | '0' :: 'b' :: r => (2, r)
    | '0' :: 'B' :: r => (2, r)
    | '0' :: c :: r => (8, c :: r)
    | r => (10, r)
  if digits.isEmpty then invalid
  else
    match parseDigits base digits (some 0) with
    | none => invalid
    | some n =>
      if neg then
        if (n : Int) > 9223372036854775808 then outOfRange else .ok (-(n : Int))
      else
        if (n : Int) ≥ 9223372036854775808 then outOfRange else .ok (n : Int)

/-- `(*Template).executeBasicLit`: strings are returned as stored; integer
literals go through `strconv.ParseInt(v, 0, 64)` (a failure is wrapped as
`invalid AST: "<v>" is not an integer`); booleans map from their text. -/
def executeBasicLit (kind : LitKind) (value : String) : Except Err Value :=
  match kind with
  | .str => .ok (.vStr value)
  | .int =>
    match parseIntGo value with
    | .ok i => .ok (.vInt .i64 i)
    | .error e =>
      .error (.errMsg ("invalid AST: \"" ++ value ++ "\" is not an integer: " ++ e))
  | .bool =>
    if value = "true" then .ok (.vBool true)
    else if value = "false" then .ok (.vBool false)
    else .error (.errMsg ("invalid bool literal \"" ++ value ++ "\""))

/-! ## Function stash -/

/-- `funcStash`: the per-execution table mapping synthesised names to stashed
function values.  The Go value is a map written only through `save`, whose
keys under that usage are exactly `func-0 .. func-(n-1)`; it is modelled as
the insertion-ordered association list. -/
abbrev FuncStash := List (String × Value)

/-- `funcStash.save`: the synthesised name is `fmt.Sprintf("func-%d", len(*s))`
(the current number of stashed entries) and the function is inserted there. -/
def FuncStash.save (s : FuncStash) (f : Value) : String × FuncStash :=
  let name := "func-" ++ toString s.length
  (name, s ++ [(name, f)])

/-! ## Lookup (value adapter)

`lookup` and `extract` live outside the given source files. -/

/-- Modelled from the spec: name lookup of the value adapter — "Name lookup
resolves against: map keys (exact match) ...; Missing names/indices produce a
not-defined error" (§4.4).  Record fields and accessors are outside the data
model. -/
def lookupName (name : String) : Value → Except Err Value
  | .vMap entries =>
    match entries.find? (fun kv => kv.1 == name) with
    | some kv => .ok kv.2
    | none => .error (.notDefined ("\"." ++ name ++ "\" not found"))
  | _ => .error (.notDefined ("\"." ++ name ++ "\" not found"))

/-- Modelled from the spec: the `lookup`/`extract` used for Ident, Selector and
Index expressions — "Given a data value and a path element (name or index),
return the addressed sub-value"; "Index lookup resolves against sequences
(integer index, 0-based)"; missing names and indices are the distinguished
not-defined error (§4.3, §4.4).  Receivers other than path expressions are
rejected. -/
def extract : Expr → Value → Except Err Value
  | .ident n, data => lookupName n data
  | .selector x sel, data =>
    match extract x data with
    | .ok v => lookupName sel v
    | .error e => .error e
  | .indexE x i, data =>
    match extract x data with
    | .ok (.vList elems) =>
      if h : 0 ≤ i ∧ i.toNat < elems.length then .ok (elems.get ⟨i.toNat, h.2⟩)
      else .error (.notDefined ("index " ++ toString i ++ " out of range"))
    | .ok _ => .error (.notDefined ("index " ++ toString i ++ " out of range"))
    | .error e => .error e
  | _, _ => .error (.errMsg "invalid query")

/-- `strings.Join`: concatenate the pieces with the separator between them. -/
def joinSep (sep : String) : List String → String
  | [] => ""
  | [x] => x
  | x :: rest => x ++ sep ++ joinSep sep rest

/-! ## YAML marshalling

`yaml.Marshal` is the external go-yaml library. -/

mutual
/-- Modelled from the spec: the lines of the canonical data-serialisation
(YAML) text of a value — "marshal the value as structured data text (canonical
data-serialisation format ...)" (§4.3).  Scalars render on one line (strings
verbatim, go-yaml's quoting rules abstracted); mappings and sequences render
one entry per line with two-space nesting; marshalling a function value is the
library error the source propagates. -/
def yamlLines : Value → Except String (List String)
  | .vNil => .ok ["null"]
  | .vBool b => .ok [if b then "true" else "false"]
  | .vInt _ n => .ok [toString n]
  | .vUint _ n => .ok [toString n]
  | .vStr s => .ok [s]
  | .vBytes bs => .ok ["[" ++ joinSep ", " (bs.map toString) ++ "]"]
  | .vMap [] => .ok ["\x7b\x7d"]
  | .vMap entries => yamlMapLines entries
  | .vList [] => .ok ["[]"]
  | .vList elems => yamlListLines elems
  | .vFunc _ => .error "unknown value type func"

def yamlMapLines : List (String × Value) → Except String (List String)
  | [] => .ok []
  | (k, v) :: rest =>
    match yamlLines v, yamlMapLines rest with
    | .ok [single], .ok more => .ok ((k ++ ": " ++ single) :: more)
    | .ok multi, .ok more => .ok ((k ++ ":") :: multi.map (fun l => "  " ++ l) ++ more)
    | .error e, _ => .error e
    | _, .error e => .error e

def yamlListLines : List Value → Except String (List String)
  | [] => .ok []
  | v :: rest =>
    match yamlLines v, yamlListLines rest with
    | .ok [], .ok more => .ok more
    | .ok (l :: ls), .ok more =>
      .ok (("- " ++ l) :: ls.map (fun s => "  " ++ s) ++ more)
    | .error e, _ => .error e
    | _, .error e => .error e
end

/-- Modelled from the spec: `yaml.Marshal` — the serialised text ends with a
newline (which `executeParameterExpr` trims). -/
def yamlMarshal (v : Value) : Except String String :=
  match yamlLines v with
  | .ok ls => .ok (joinSep "\n" ls ++ "\n")
  | .error e => .error e

/-- `strings.ContainsRune` / `strings.Contains` with a one-rune needle,
computed over the character list. -/
def containsRune (s : String) (c : Char) : Bool := s.data.contains c

/-- `strings.Split` with a one-rune separator, over character lists: splitting
the empty text yields one empty piece, as in Go. -/
def splitChar (c : Char) : List Char → List (List Char)
  | [] => [[]]
  | a :: rest =>
    let r := splitChar c rest
    if a = c then [] :: r
    else
      match r with
      | h :: t => (a :: h) :: t
      | [] => [[a]]

def splitOnChar (s : String) (c : Char) : List String :=
  (splitChar c s.data).map String.mk


/-- `strings.TrimSuffix`, computed over the character lists. -/
def goTrimSuffix (s suffix : String) : String :=
  if suffix.data.isSuffixOf s.data then
    String.mk (s.data.take (s.data.length - suffix.data.length))
  else s

/-! ## Indent alignment (`Template.addIndent`) -/

/-- The body of `addIndent`'s write loop for the lines after the first: each
further line contributes a newline, then — only when the line is non-empty —
the space run `pad`, then the line. -/
def writeLines (pad : String) : List String → String
  | [] => ""
  | s :: rest => ("\n" ++ (if s = "" then "" else pad) ++ s) ++ writeLines pad rest

/-- `(*Template).addIndent(str, preStr)`: in re-serialisation mode, when `str`
is multi-line and `preStr` is non-empty, re-emit `str` with every non-empty
line after the first prefixed by as many spaces as the rune length of
`preStr`'s final line; otherwise return `str` unchanged.  The `error` return
of the Go function is only fed by `strings.Builder` writes, which do not fail. -/
def addIndent (lam : Bool) (str preStr : String) : String :=
  if lam then
    if containsRune str '\n' ∧ preStr ≠ "" then
      let lines := splitOnChar preStr '\n'
      let pad := String.mk (List.replicate (lines.getLastD "").length ' ')
      match splitOnChar str '\n' with
      | [] => ""
      | h :: tl => h ++ writeLines pad tl
    else str
  else str

/-! ## Binary operations (`executeBinaryExpr`) -/

/-- Modelled from the spec: the template package's `comparable` helper is
outside the given files; spec 4.4 "Equality. Structural equality for
comparable values" — whether `reflect` considers the value's type comparable:
integers, unsigned integers, booleans and strings are; slices, maps and
functions are not. -/
def comparableV : Value → Bool
  | .vInt _ _ | .vUint _ _ | .vBool _ | .vStr _ => true
  | _ => false

/-- Modelled from the spec: the template package's `reflectEqual` helper is
outside the given files; spec 4.4 — structural equality of two interface
values of the same kind. -/
def reflectEqualV : Value → Value → Bool
  | .vInt w n, .vInt w2 m => w == w2 && n == m
  | .vUint w n, .vUint w2 m => w == w2 && n == m
  | .vBool a, .vBool b => a == b
  | .vStr a, .vStr b => a == b
  | _, _ => false

/-- `equal(x, y)`: returns `some b` when equality is defined on the operands
(the Go pair `(b, true)`), `none` otherwise.  Nil (invalid) operands compare
equal; comparable values compare structurally; byte sequences compare
byte-wise. -/
def equalV (x y : Value) : Option Bool :=
  if x.kind = .invalid then some true
  else if comparableV x then some (reflectEqualV x y)
  else
    match x, y with
    | .vBytes xb, .vBytes yb => some (xb == yb)
    | _, _ => none

/-- `bytes.Compare` on byte sequences: negative, zero or positive. -/
def bytesCompare : List Nat → List Nat → Int
  | [], [] => 0
  | [], _ :: _ => -1
  | _ :: _, [] => 1
  | a :: xs, b :: ys =>
    if a < b then -1 else if b < a then 1 else bytesCompare xs ys

/-- The signed-integer arm of `executeBinaryExpr`'s kind switch, after both
operands are converted to `int64`: add/sub/mul run the source's overflow
checks against the 64-bit signed bounds (`math.MaxInt64/yi` etc. is Go's
truncated division, `Int.tdiv`); `/` and `%` fail on a zero divisor and
otherwise truncate; comparisons yield booleans.  `none` means the operator
falls through to the final not-defined error. -/
def intOps (op : BinOp) (xi yi : Int) : Option (Outcome Value) :=
  match op with
  | .add =>
    if (0 < yi ∧ maxI64 - yi < xi) ∨ (yi < 0 ∧ xi < minI64 - yi) then
      some (.fail (.errMsg (toString xi ++ " + " ++ toString yi ++ " overflows int")))
    else some (.ok (.vInt .i64 (xi + yi)))
  | .sub =>
    if (yi < 0 ∧ maxI64 + yi < xi) ∨ (0 < yi ∧ xi < minI64 + yi) then
      some (.fail (.errMsg (toString xi ++ " - " ++ toString yi ++ " overflows int")))
    else some (.ok (.vInt .i64 (xi - yi)))
  | .mul =>
    if (0 < xi ∧ 0 < yi ∧ maxI64.tdiv yi < xi) ∨
        (xi < 0 ∧ yi < 0 ∧ xi < maxI64.tdiv yi) ∨
        (0 < xi ∧ yi < 0 ∧ yi < minI64.tdiv xi) ∨
        (xi < 0 ∧ 0 < yi ∧ xi < minI64.tdiv yi) then
      some (.fail (.errMsg (toString xi ++ " * " ++ toString yi ++ " overflows int")))
    else some (.ok (.vInt .i64 (xi * yi)))
  | .quo =>
    if yi = 0 then some (.fail (.errMsg "division by 0"))
    else some (.ok (.vInt .i64 (xi.tdiv yi)))
  | .rem =>
    if yi = 0 then some (.fail (.errMsg "division by 0"))
    else some (.ok (.vInt .i64 (xi.tmod yi)))
  | .lss => some (.ok (.vBool (decide (xi < yi))))
  | .leq => some (.ok (.vBool (decide (xi ≤ yi))))
  | .gtr => some (.ok (.vBool (decide (yi < xi))))
  | .geq => some (.ok (.vBool (decide (yi ≤ xi))))
  | _ => none

/-- The unsigned arm: checks against the 64-bit unsigned bounds; subtraction
below zero fails.  The multiplication guard divides by `yi` before comparing,
so a zero `yi` is a Go runtime panic (integer divide by zero), which the model
surfaces as a panic outcome. -/
def uintOps (op : BinOp) (xi yi : Int) : Option (Outcome Value) :=
  match op with
  | .add =>
    if 0 < yi ∧ maxU64 - yi < xi then
      some (.fail (.errMsg (toString xi ++ " + " ++ toString yi ++ " overflows uint")))
    else some (.ok (.vUint .u64 (xi + yi)))
  | .sub =>
    if xi < yi then
      some (.fail (.errMsg (toString xi ++ " - " ++ toString yi ++ " overflows uint")))
    else some (.ok (.vUint .u64 (xi - yi)))
  | .mul =>
    if yi = 0 then some (.panicked "runtime error: integer divide by zero")
    else if maxU64 / yi < xi then
      some (.fail (.errMsg (toString xi ++ " * " ++ toString yi ++ " overflows uint")))
    else some (.ok (.vUint .u64 (xi * yi)))
  | .quo =>
    if yi = 0 then some (.fail (.errMsg "division by 0"))
    else some (.ok (.vUint .u64 (xi / yi)))
  | .rem =>
    if yi = 0 then some (.fail (.errMsg "division by 0"))
    else some (.ok (.vUint .u64 (xi % yi)))
  | .lss => some (.ok (.vBool (decide (xi < yi))))
  | .leq => some (.ok (.vBool (decide (xi ≤ yi))))
  | .gtr => some (.ok (.vBool (decide (yi < xi))))
  | .geq => some (.ok (.vBool (decide (yi ≤ xi))))
  | _ => none

/-- The boolean arm: `&&` and `||` on the already-evaluated operands. -/
def boolOps (op : BinOp) (xb yb : Bool) : Option (Outcome Value) :=
  match op with
  | .land => some (.ok (.vBool (xb && yb)))
  | .lor => some (.ok (.vBool (xb || yb)))
  | _ => none

/-- The string arm: `+` concatenates — applying `addIndent` first when in
re-serialisation mode and the right operand expression is a `ParameterExpr` —
and comparisons are lexicographic. -/
def stringOps (lam yIsParam : Bool) (op : BinOp) (xs ys : String) : Option (Outcome Value) :=
  match op with
  | .add =>
    let ys2 := if lam ∧ yIsParam then addIndent lam ys xs else ys
    some (.ok (.vStr (xs ++ ys2)))
  | .lss => some (.ok (.vBool (decide (xs < ys))))
  | .leq => some (.ok (.vBool (decide (xs ≤ ys))))
  | .gtr => some (.ok (.vBool (decide (ys < xs))))
  | .geq => some (.ok (.vBool (decide (ys ≤ xs))))
  | _ => none

/-- The byte-sequence arm: `+` yields the concatenated bytes (the aliasing of
Go's `append` with the operand's backing array is modelled separately by
`goAppend` below); comparisons are byte-lexicographic via `bytes.Compare`. -/
def bytesOps (op : BinOp) (xb yb : List Nat) : Option (Outcome Value) :=
  match op with
  | .add => some (.ok (.vBytes (xb ++ yb)))
  | .lss => some (.ok (.vBool (decide (bytesCompare xb yb < 0))))
  | .leq => some (.ok (.vBool (decide (bytesCompare xb yb ≤ 0))))
  | .gtr => some (.ok (.vBool (decide (0 < bytesCompare xb yb))))
  | .geq => some (.ok (.vBool (decide (0 ≤ bytesCompare xb yb))))
  | _ => none

/-- The final fall-through error of `executeBinaryExpr`. -/
def binNotDefinedErr (op : BinOp) (x : Value) : Outcome Value :=
  .fail (.errMsg ("operator " ++ op.goStr ++ " not defined on " ++ x.goShow ++
    " (value of type " ++ x.goTypeName ++ ")"))

/-- The operator logic of `executeBinaryExpr` once both operands are values:
mismatched kinds fail; `==`/`!=` use `equal` when it is defined; otherwise the
kind switch runs the arm for the left operand's kind, and an operator with no
case falls through to the not-defined error.  `lam` is the template's
re-serialisation flag and `yIsParam` records whether the right operand
expression is an `ast.ParameterExpr`. -/
def binaryCore (lam yIsParam : Bool) (op : BinOp) (x y : Value) : Outcome Value :=
  if x.kind ≠ y.kind then
    .fail (.errMsg (x.goShow ++ " " ++ op.goStr ++ " " ++ y.goShow ++
      ": mismatched types " ++ x.goTypeName ++ " and " ++ y.goTypeName))
  else
    match op, equalV x y with
    | .eql, some b => .ok (.vBool b)
    | .neq, some b => .ok (.vBool !b)
    | _, _ =>
      let fallback :=
        match x.kind with
        | .invalid => some (.fail (.errMsg ("operator " ++ op.goStr ++ " not defined on nil")))
        | .kInt _ =>
          match x, y with
          | .vInt _ xi, .vInt _ yi => intOps op xi yi
          | _, _ => none
        | .kUint _ =>
          match x, y with
          | .vUint _ xi, .vUint _ yi => uintOps op xi yi
          | _, _ => none
        | .kBool =>
          match x, y with
          | .vBool xb, .vBool yb => boolOps op xb yb
          | _, _ => none
        | .kString =>
          match x, y with
          | .vStr xs, .vStr ys => stringOps lam yIsParam op xs ys
          | _, _ => none
        | .kSlice =>
          match x, y with
          | .vBytes xb, .vBytes yb => bytesOps op xb yb
          | _, _ => none
        | _ => none
      match fallback with
      | some r => r
      | none => binNotDefinedErr op x

/-- The wrapping that signed negation applies to an unsigned operand:
`-int(n)`, with Go's conversion to `int` wrapping modulo `2^64` and the
negation of the minimum value wrapping onto itself. -/
def negToInt (n : Int) : Int :=
  let v : Int := if n < 9223372036854775808 then n else n - 18446744073709551616
  if v = minI64 then v else -v

/-- The operator logic of `executeUnaryExpr` once the operand is a value.
`-` on a signed integer fails when the operand is the width's minimum value;
`-` on an unsigned integer yields an `int`, failing when the operand exceeds
`-math.MinInt` (`2^63`) for the `uint`, `uint32` and `uint64` cases (`uint8`
and `uint16` are negated unchecked); `!` requires a boolean; anything else is
the not-defined error. -/
def unaryCore (op : UnOp) (x : Value) : Outcome Value :=
  let fallback : Option (Outcome Value) :=
    match op with
    | .sub =>
      match x with
      | .vInt w n =>
        if n = w.minVal then
          some (.fail (.errMsg ("-(" ++ toString n ++ ") overflows " ++ w.goName)))
        else some (.ok (.vInt w (-n)))
      | .vUint w n =>
        match w with
        | .u8 => some (.ok (.vInt .i (negToInt n)))
        | .u16 => some (.ok (.vInt .i (negToInt n)))
        | _ =>
          if 9223372036854775808 < n then
            some (.fail (.errMsg ("-" ++ toString n ++ " overflows int")))
          else some (.ok (.vInt .i (negToInt n)))
      | _ => none
    | .not =>
      match x with
      | .vBool b => some (.ok (.vBool !b))
      | _ => none
  match fallback with
  | some r => r
  | none =>
    .fail (.errMsg ("unknown operation: operator " ++ op.goStr ++ " not defined on " ++
      x.goTypeName))

/-- Whether an expression is an `ast.ParameterExpr` (the type test
`(e.Y).(*ast.ParameterExpr)` in the string-concatenation case). -/
def Expr.isParam : Expr → Bool
  | .param _ _ => true
  | _ => false

/-- `(*Template).executeDefinedExpr`: the argument must be an Ident, Selector
or Index expression; the lookup's distinguished not-defined error becomes
`false`, success becomes `true`, and every other lookup error propagates. -/
def executeDefinedExpr (arg : Expr) (data : Value) : Except Err Bool :=
  match arg with
  | .ident _ | .selector _ _ | .indexE _ _ =>
    match extract arg data with
    | .ok _ => .ok true
    | .error (.notDefined _) => .ok false
    | .error e => .error e
  | _ => .error (.errMsg "invalid argument to defined()")

/-! ## The evaluator (`executeExpr`)

The state threaded through evaluation is the function stash (the only
mutable state the template evaluation touches); `lam` is the template's
`executingLeftArrowExprArg` flag.  Errors of `executeBinaryExpr` — including
errors from evaluating either operand — are wrapped as
`invalid operation: %w` by the dispatcher, as in the source.  The call case
abstracts the reflective arity checking and argument conversion of
`executeFuncCall`: the callee must still be a function value, arguments are
still evaluated left to right, and the call's observable behaviour is the
function value's `FuncRes` (a returned value, a returned non-nil error, or a
panic). -/

mutual
def executeExpr (lam : Bool) (data : Value) (st : FuncStash) : Expr → Outcome (Value × FuncStash)
  | .basicLit kind value =>
    match executeBasicLit kind value with
    | .ok v => .ok (v, st)
    | .error e => .fail e
  | .ident n =>
    match extract (.ident n) data with
    | .ok v => .ok (v, st)
    | .error e => .fail e
  | .selector x sel =>
    match extract (.selector x sel) data with
    | .ok v => .ok (v, st)
    | .error e => .fail e
  | .indexE x i =>
    match extract (.indexE x i) data with
    | .ok v => .ok (v, st)
    | .error e => .fail e
  | .param none _ => .ok (.vStr "", st)
  | .param (some inner) quoted =>
    match executeExpr lam data st inner with
    | .ok (v, st1) =>
      if lam then
        if v.isFuncVal then
          let (name, st2) := st1.save v
          if quoted then .ok (.vStr ("\x27\x7b\x7b" ++ name ++ "\x7d\x7d\x27"), st2)
          else .ok (.vStr ("\x7b\x7b" ++ name ++ "\x7d\x7d"), st2)
        else
          match yamlMarshal v with
          | .ok b => .ok (.vStr (goTrimSuffix b "\n"), st1)
          | .error m => .fail (.errMsg m)
      else .ok (v, st1)
    | r => r
  | .paren x => executeExpr lam data st x
  | .unary op x =>
    match executeExpr lam data st x with
    | .ok (xv, st1) =>
      match unaryCore op xv with
      | .ok v => .ok (v, st1)
      | .fail e => .fail e
      | .panicked m => .panicked m
    | r => r
  | .binary x op y =>
    match executeExpr lam data st x with
    | .ok (xv, st1) =>
      match executeExpr lam data st1 y with
      | .ok (yv, st2) =>
        match binaryCore lam y.isParam op xv yv with
        | .ok v => .ok (v, st2)
        | .fail e => .fail (e.wrapPre "invalid operation: ")
        | .panicked m => .panicked m
      | .fail e => .fail (e.wrapPre "invalid operation: ")
      | .panicked m => .panicked m
    | .fail e => .fail (e.wrapPre "invalid operation: ")
    | .panicked m => .panicked m
  | .condE c x y =>
    match executeExpr lam data st c with
    | .ok (cv, st1) =>
      match cv with
      | .vBool b => if b then executeExpr lam data st1 x else executeExpr lam data st1 y
      | _ =>
        .fail (.errMsg ("invalid operation: operator ? not defined on " ++ cv.goShow ++
          " (value of type " ++ cv.goTypeName ++ ")"))
    | r => r
  | .call fn args =>
    match executeExpr lam data st fn with
    | .ok (fv, st1) =>
      match fv with
      | .vFunc res =>
        match executeArgs lam data st1 args with
        | .ok (_, st2) =>
          match res with
          | .ret v => .ok (v, st2)
          | .failWith m => .fail (.errMsg m)
          | .panicsWith m => .panicked m
        | .fail e => .fail e
        | .panicked m => .panicked m
      | _ => .fail (.errMsg "not function")
    | r => r
  | .definedE arg =>
    match executeDefinedExpr arg data with
    | .ok b => .ok (.vBool b, st)
    | .error e => .fail e
termination_by e => sizeOf e

def executeArgs (lam : Bool) (data : Value) (st : FuncStash) :
    List Expr → Outcome (List Value × FuncStash)
  | [] => .ok ([], st)
  | a :: rest =>
    match executeExpr lam data st a with
    | .ok (v, st1) =>
      match executeArgs lam data st1 rest with
      | .ok (vs, st2) => .ok (v :: vs, st2)
      | .fail e => .fail e
      | .panicked m => .panicked m
    | .fail e => .fail e
    | .panicked m => .panicked m
termination_by es => sizeOf es
end

/-- The parsed template: source text, expression tree, the re-serialisation
flag and the function stash. -/
structure Template where
  str : String
  expr : Expr
  executingLeftArrowExprArg : Bool := false
  argFuncs : FuncStash := []

/-- `(*Template).Execute`: evaluate the tree against the data.  The deferred
`recover` converts any panic into the ordinary error
`failed to execute: panic: <reason>`; an ordinary evaluation error is wrapped
with `failed to execute:` and the template source (the multi-line form when
the source contains a newline). -/
def Template.Execute (t : Template) (data : Value) : Outcome Value :=
  match executeExpr t.executingLeftArrowExprArg data t.argFuncs t.expr with
  | .ok (v, _) => .ok v
  | .fail e =>
    if containsRune t.str '\n' then
      .fail (Err.wrapf ("failed to execute: \n" ++ t.str ++ "\n") e)
    else
      .fail (Err.wrapf ("failed to execute: " ++ t.str) e)
  | .panicked m => .fail (.errMsg ("failed to execute: panic: " ++ m))

/-! ## Correctness of the signed-overflow checks (claim C1)

The source guards `+`, `-` and `*` on signed 64-bit operands with explicit
comparisons against `math.MaxInt64` / `math.MinInt64`, using Go's truncated
division in the multiplication guard.  The lemmas below show each guard fires
exactly when the mathematical result leaves the 64-bit signed range. -/

lemma ediv_lt_iff_lt_mul {a b c : Int} (hc : 0 < c) : b / c < a ↔ b < a * c := by
  rw [← not_le, Int.le_ediv_iff_mul_le hc, not_le]

lemma addCheck_iff (x y : Int) (hx1 : minI64 ≤ x) (hx2 : x ≤ maxI64)
    (hy1 : minI64 ≤ y) (hy2 : y ≤ maxI64) :
    ((0 < y ∧ maxI64 - y < x) ∨ (y < 0 ∧ x < minI64 - y)) ↔
      (x + y < minI64 ∨ maxI64 < x + y) := by
  simp only [maxI64, minI64] at *
  omega

lemma subCheck_iff (x y : Int) (hx1 : minI64 ≤ x) (hx2 : x ≤ maxI64)
    (hy1 : minI64 ≤ y) (hy2 : y ≤ maxI64) :
    ((y < 0 ∧ maxI64 + y < x) ∨ (0 < y ∧ x < minI64 + y)) ↔
      (x - y < minI64 ∨ maxI64 < x - y) := by
  simp only [maxI64, minI64] at *
  omega

lemma tdiv_max_pos {y : Int} (hy : 0 < y) : maxI64.tdiv y = maxI64 / y :=
  Int.tdiv_eq_ediv (by norm_num [maxI64]) (le_of_lt hy)

lemma tdiv_max_neg {y : Int} (hy : y < 0) : maxI64.tdiv y = -(maxI64 / (-y)) := by
  have h := Int.tdiv_neg maxI64 (-y)
  rw [neg_neg] at h
  rw [h, Int.tdiv_eq_ediv (by norm_num [maxI64]) (by omega)]

lemma tdiv_min_pos {x : Int} (hx : 0 < x) :
    minI64.tdiv x = -((9223372036854775808 : Int) / x) := by
  have h : minI64 = -(9223372036854775808 : Int) := by norm_num [minI64]
  rw [h, Int.neg_tdiv, Int.tdiv_eq_ediv (by norm_num) (le_of_lt hx)]

lemma mulPP {x y : Int} (hy : 0 < y) :
    maxI64.tdiv y < x ↔ maxI64 < x * y := by
  rw [tdiv_max_pos hy, ediv_lt_iff_lt_mul hy]

lemma mulNN {x y : Int} (hy : y < 0) :
    x < maxI64.tdiv y ↔ maxI64 < x * y := by
  rw [tdiv_max_neg hy, lt_neg, ediv_lt_iff_lt_mul (by omega : (0:Int) < -y), neg_mul_neg]

lemma mulPN {x y : Int} (hx : 0 < x) :
    y < minI64.tdiv x ↔ x * y < minI64 := by
  rw [tdiv_min_pos hx, lt_neg, ediv_lt_iff_lt_mul hx, neg_mul, mul_comm,
    lt_neg, show (9223372036854775808 : Int) = -minI64 by norm_num [minI64], neg_neg]

lemma mulNP {x y : Int} (hy : 0 < y) :
    x < minI64.tdiv y ↔ x * y < minI64 := by
  rw [tdiv_min_pos hy, lt_neg, ediv_lt_iff_lt_mul hy, neg_mul,
    lt_neg, show (9223372036854775808 : Int) = -minI64 by norm_num [minI64], neg_neg]

lemma mulCheck_iff (x y : Int) (hx1 : minI64 ≤ x) (hx2 : x ≤ maxI64)
    (hy1 : minI64 ≤ y) (hy2 : y ≤ maxI64) :
    ((0 < x ∧ 0 < y ∧ maxI64.tdiv y < x) ∨
     (x < 0 ∧ y < 0 ∧ x < maxI64.tdiv y) ∨
     (0 < x ∧ y < 0 ∧ y < minI64.tdiv x) ∨
     (x < 0 ∧ 0 < y ∧ x < minI64.tdiv y)) ↔
      (x * y < minI64 ∨ maxI64 < x * y) := by
  have hmin : minI64 < 0 := by norm_num [minI64]
  have hmax : 0 < maxI64 := by norm_num [maxI64]
  rcases lt_trichotomy x 0 with hx | hx | hx
  · rcases lt_trichotomy y 0 with hy | hy | hy
    · have hp : 0 < x * y := mul_pos_of_neg_of_neg hx hy
      constructor
      · rintro (⟨h, _⟩ | ⟨_, _, h⟩ | ⟨h, _⟩ | ⟨_, h, _⟩)
        · exact absurd h (by omega)
        · exact Or.inr ((mulNN hy).mp h)
        · exact absurd h (by omega)
        · exact absurd h (by omega)
      · rintro (h | h)
        · exact absurd h (by intro hh; linarith)
        · exact Or.inr (Or.inl ⟨hx, hy, (mulNN hy).mpr h⟩)
    · subst hy
      constructor
      · rintro (⟨_, h, _⟩ | ⟨_, h, _⟩ | ⟨_, h, _⟩ | ⟨_, h, _⟩) <;> exact absurd h (lt_irrefl 0)
      · rintro (h | h) <;> rw [mul_zero] at h
        · exact absurd h (by norm_num [minI64])
        · exact absurd h (by norm_num [maxI64])
    · have hp : x * y < 0 := mul_neg_of_neg_of_pos hx hy
      constructor
      · rintro (⟨h, _⟩ | ⟨_, h, _⟩ | ⟨h, _⟩ | ⟨_, _, h⟩)
        · exact absurd h (by omega)
        · exact absurd h (by omega)
        · exact absurd h (by omega)
        · exact Or.inl ((mulNP hy).mp h)
      · rintro (h | h)
        · exact Or.inr (Or.inr (Or.inr ⟨hx, hy, (mulNP hy).mpr h⟩))
        · exact absurd h (by intro hh; linarith)
  · subst hx
    constructor
    · rintro (⟨h, _⟩ | ⟨h, _⟩ | ⟨h, _⟩ | ⟨h, _⟩) <;> exact absurd h (lt_irrefl 0)
    · rintro (h | h) <;> rw [zero_mul] at h
      · exact absurd h (by norm_num [minI64])
      · exact absurd h (by norm_num [maxI64])
  · rcases lt_trichotomy y 0 with hy | hy | hy
    · have hp : x * y < 0 := mul_neg_of_pos_of_neg hx hy
      constructor
      · rintro (⟨_, h, _⟩ | ⟨h, _⟩ | ⟨_, _, h⟩ | ⟨h, _⟩)
        · exact absurd h (by omega)
        · exact absurd h (by omega)
        · exact Or.inl ((mulPN hx).mp h)
        · exact absurd h (by omega)
      · rintro (h | h)
        · exact Or.inr (Or.inr (Or.inl ⟨hx, hy, (mulPN hx).mpr h⟩))
        · exact absurd h (by intro hh; linarith)
    · subst hy
      constructor
      · rintro (⟨_, h, _⟩ | ⟨_, h, _⟩ | ⟨_, h, _⟩ | ⟨_, h, _⟩) <;> exact absurd h (lt_irrefl 0)
      · rintro (h | h) <;> rw [mul_zero] at h
        · exact absurd h (by norm_num [minI64])
        · exact absurd h (by norm_num [maxI64])
    · have hp : 0 < x * y := mul_pos hx hy
      constructor
      · rintro (⟨_, _, h⟩ | ⟨h, _⟩ | ⟨_, h, _⟩ | ⟨h, _⟩)
        · exact Or.inr ((mulPP hy).mp h)
        · exact absurd h (by omega)
        · exact absurd h (by omega)
        · exact absurd h (by omega)
      · rintro (h | h)
        · exact absurd h (by intro hh; linarith)
        · exact Or.inl ⟨hx, hy, (mulPP hy).mpr h⟩

/-- A data tree binding `a` and `b` to signed integers of width `k`. -/
def intPairData (k : IntW) (a b : Int) : Value :=
  .vMap [("a", .vInt k a), ("b", .vInt k b)]

/-- The template expression `a <op> b` over the two bound names. -/
def binAB (op : BinOp) : Expr := .binary (.ident "a") op (.ident "b")

lemma IntW.range_sub {k : IntW} {n : Int} (h : k.inRange n) :
    minI64 ≤ n ∧ n ≤ maxI64 := by
  cases k <;> simp [IntW.inRange, IntW.minVal, IntW.maxVal, minI64, maxI64] at h ⊢ <;> omega

/-! ## Claim C1 -/

/-- Claim C1 (counterexample): two operand values of signed integer kind but of
different reflect kinds — `int8(3)` and `int64(5)` — are rejected by the
`mismatched types` kind check of `executeBinaryExpr`, so `+` does not return
the exact in-range mathematical result 8 the claim promises. -/
theorem claim_C1_counterexample :
    executeExpr false (Value.vMap [("a", .vInt .i8 3), ("b", .vInt .i64 5)]) []
        (.binary (.ident "a") .add (.ident "b")) =
      .fail (.errMsg "invalid operation: 3 + 5: mismatched types int8 and int64") := by
  simp [executeExpr, extract, lookupName, binaryCore, Value.kind, Value.goShow,
    Value.goTypeName, IntW.goName, BinOp.goStr, Err.wrapPre]
  decide

/-- Claim C1 (amended: the two operands must have the same signed integer
kind): for operands `a` and `b` of one signed width bound in the data tree,
`a + b`, `a - b` and `a * b` fail with the overflow error exactly when the
mathematical result leaves the 64-bit signed range and otherwise return the
exact result as an `int64`; `/` and `%` fail with the division-by-zero error
exactly when the divisor is zero, and otherwise truncate towards zero. -/
theorem claim_C1_theorem (k : IntW) (a b : Int) (st : FuncStash)
    (ha : k.inRange a) (hb : k.inRange b) :
    (executeExpr false (intPairData k a b) st (binAB .add) =
      if a + b < minI64 ∨ maxI64 < a + b then
        .fail (.errMsg ("invalid operation: " ++ toString a ++ " + " ++ toString b ++
          " overflows int"))
      else .ok (.vInt .i64 (a + b), st)) ∧
    (executeExpr false (intPairData k a b) st (binAB .sub) =
      if a - b < minI64 ∨ maxI64 < a - b then
        .fail (.errMsg ("invalid operation: " ++ toString a ++ " - " ++ toString b ++
          " overflows int"))
      else .ok (.vInt .i64 (a - b), st)) ∧
    (executeExpr false (intPairData k a b) st (binAB .mul) =
      if a * b < minI64 ∨ maxI64 < a * b then
        .fail (.errMsg ("invalid operation: " ++ toString a ++ " * " ++ toString b ++
          " overflows int"))
      else .ok (.vInt .i64 (a * b), st)) ∧
    (executeExpr false (intPairData k a b) st (binAB .quo) =
      if b = 0 then .fail (.errMsg "invalid operation: division by 0")
      else .ok (.vInt .i64 (a.tdiv b), st)) ∧
    (executeExpr false (intPairData k a b) st (binAB .rem) =
      if b = 0 then .fail (.errMsg "invalid operation: division by 0")
      else .ok (.vInt .i64 (a.tmod b), st)) := by
  obtain ⟨ha1, ha2⟩ := IntW.range_sub ha
  obtain ⟨hb1, hb2⟩ := IntW.range_sub hb
  refine ⟨?_, ?_, ?_, ?_, ?_⟩
  · simp [binAB, intPairData, executeExpr, extract, lookupName, binaryCore,
      Value.kind, intOps, equalV, comparableV, Expr.isParam, Err.wrapPre, apply_ite]
    rw [if_congr (addCheck_iff a b ha1 ha2 hb1 hb2) rfl rfl]
    split_ifs with h
    · simp [h, String.append_assoc]
    · simp [h]
  · simp [binAB, intPairData, executeExpr, extract, lookupName, binaryCore,
      Value.kind, intOps, equalV, comparableV, Expr.isParam, Err.wrapPre, apply_ite]
    rw [if_congr (subCheck_iff a b ha1 ha2 hb1 hb2) rfl rfl]
    split_ifs with h
    · simp [h, String.append_assoc]
    · simp [h]
  · simp [binAB, intPairData, executeExpr, extract, lookupName, binaryCore,
      Value.kind, intOps, equalV, comparableV, Expr.isParam, Err.wrapPre, apply_ite]
    rw [if_congr (mulCheck_iff a b ha1 ha2 hb1 hb2) rfl rfl]
    split_ifs with h
    · simp [h, String.append_assoc]
    · simp [h]
  · simp [binAB, intPairData, executeExpr, extract, lookupName, binaryCore,
      Value.kind, intOps, equalV, comparableV, Expr.isParam, Err.wrapPre, apply_ite]
    split_ifs with h
    · simp [h]
    · simp [h]
  · simp [binAB, intPairData, executeExpr, extract, lookupName, binaryCore,
      Value.kind, intOps, equalV, comparableV, Expr.isParam, Err.wrapPre, apply_ite]
    split_ifs with h
    · simp [h]
    · simp [h]

/-- Claim C1 witness: at `a = 9223372036854775807`, `b = 1` (both `int64`),
the hypotheses hold and addition overflows with the diagnostic. -/
theorem claim_C1_witness :
    IntW.inRange .i64 9223372036854775807 ∧ IntW.inRange .i64 1 ∧
    executeExpr false (intPairData .i64 9223372036854775807 1) [] (binAB .add) =
      .fail (.errMsg "invalid operation: 9223372036854775807 + 1 overflows int") := by
  refine ⟨by decide, by decide, ?_⟩
  have h := (claim_C1_theorem .i64 9223372036854775807 1 [] (by decide) (by decide)).1
  rw [h]
  norm_num [minI64, maxI64]
  decide

/-! ## Claims C2 and C3 -/

/-- Claim C2: `executeBinaryExpr` evaluates both operands before the operator
switch inspects them, so `&&` and `||` do not short-circuit: when the left
operand of `&&` evaluates to true (resp. of `||` to false) and the right
operand's evaluation fails, the evaluation of the whole expression propagates
that error (behind the dispatcher's `invalid operation:` wrap) instead of
returning a boolean; through `Execute` the propagated error additionally
receives the `failed to execute:` wrap. -/
theorem claim_C2_theorem (lam : Bool) (d : Value) (st st1 : FuncStash)
    (el er : Expr) (e : Err) :
    (executeExpr lam d st el = .ok (.vBool true, st1) →
      executeExpr lam d st1 er = .fail e →
      executeExpr lam d st (.binary el .land er) =
        .fail (e.wrapPre "invalid operation: ")) ∧
    (executeExpr lam d st el = .ok (.vBool false, st1) →
      executeExpr lam d st1 er = .fail e →
      executeExpr lam d st (.binary el .lor er) =
        .fail (e.wrapPre "invalid operation: ")) ∧
    (∀ str : String, containsRune str '\n' = false →
      executeExpr lam d st el = .ok (.vBool true, st1) →
      executeExpr lam d st1 er = .fail e →
      Template.Execute ⟨str, .binary el .land er, lam, st⟩ d =
        .fail (Err.wrapf ("failed to execute: " ++ str)
          (e.wrapPre "invalid operation: "))) := by
  refine ⟨?_, ?_, ?_⟩
  · intro h1 h2
    simp [executeExpr, h1, h2]
  · intro h1 h2
    simp [executeExpr, h1, h2]
  · intro str hs h1 h2
    have hbin : executeExpr lam d st (.binary el .land er) =
        .fail (e.wrapPre "invalid operation: ") := by simp [executeExpr, h1, h2]
    simp [Template.Execute, hbin, hs]

/-- Claim C2 witness: `true && nope` with an undefined `nope` propagates the
lookup error rather than returning a boolean; likewise `false || nope`. -/
theorem claim_C2_witness :
    executeExpr false (Value.vMap []) []
        (.binary (.basicLit .bool "true") .land (.ident "nope")) =
      .fail (.notDefined "invalid operation: \".nope\" not found") ∧
    executeExpr false (Value.vMap []) []
        (.binary (.basicLit .bool "false") .lor (.ident "nope")) =
      .fail (.notDefined "invalid operation: \".nope\" not found") := by
  constructor
  · exact (claim_C2_theorem false (Value.vMap []) [] [] (.basicLit .bool "true")
      (.ident "nope") (.notDefined "\".nope\" not found")).1
      (by simp [executeExpr, executeBasicLit])
      (by simp [executeExpr, extract, lookupName])
  · exact (claim_C2_theorem false (Value.vMap []) [] [] (.basicLit .bool "false")
      (.ident "nope") (.notDefined "\".nope\" not found")).2.1
      (by simp [executeExpr, executeBasicLit])
      (by simp [executeExpr, extract, lookupName])

/-- Claim C3: `Execute` never surfaces a panic: its result is never the panic
outcome, and whenever the evaluation of the template's expression panics with
reason `m`, `Execute` returns the ordinary error
`failed to execute: panic: <m>`, by the deferred `recover` handler. -/
theorem claim_C3_theorem (t : Template) (d : Value) :
    (t.Execute d).isPanicked = false ∧
    (∀ m, executeExpr t.executingLeftArrowExprArg d t.argFuncs t.expr = .panicked m →
      t.Execute d = .fail (.errMsg ("failed to execute: panic: " ++ m))) := by
  constructor
  · unfold Template.Execute
    cases executeExpr t.executingLeftArrowExprArg d t.argFuncs t.expr with
    | ok v => simp [Outcome.isPanicked]
    | fail e => split_ifs <;> simp [Outcome.isPanicked]
    | panicked m2 => simp [Outcome.isPanicked]
  · intro m h
    unfold Template.Execute
    rw [h]

/-- Claim C3 witness: a user function that panics with reason `boom` is
recovered into the error `failed to execute: panic: boom`. -/
theorem claim_C3_witness :
    (Template.Execute ⟨"x", .call (.ident "f") [], false, []⟩
        (Value.vMap [("f", .vFunc (.panicsWith "boom"))])).isPanicked = false ∧
    Template.Execute ⟨"x", .call (.ident "f") [], false, []⟩
        (Value.vMap [("f", .vFunc (.panicsWith "boom"))]) =
      .fail (.errMsg "failed to execute: panic: boom") := by
  constructor
  · exact (claim_C3_theorem _ _).1
  · exact (claim_C3_theorem _ _).2 "boom"
      (by simp [executeExpr, executeArgs, extract, lookupName])

/-! ## Claims C5 and C7 -/

/-- Claim C5: `defined(e)` requires its argument to be an identifier, selector
or index expression (anything else is the invalid-argument error); it returns
true when the lookup succeeds, false — swallowing the error — when the lookup
fails with the distinguished not-defined kind, and propagates every other
lookup error.  Stated as an equation against the decision procedure the claim
describes. -/
theorem claim_C5_theorem (lam : Bool) (d : Value) (st : FuncStash) (arg : Expr) :
    executeExpr lam d st (.definedE arg) =
      match arg with
      | .ident _ | .selector _ _ | .indexE _ _ =>
        (match extract arg d with
         | .ok _ => .ok (.vBool true, st)
         | .error (.notDefined _) => .ok (.vBool false, st)
         | .error e => .fail e)
      | _ => .fail (.errMsg "invalid argument to defined()") := by
  cases arg with
  | ident n =>
    cases h : extract (Expr.ident n) d with
    | ok v => simp [executeExpr, executeDefinedExpr, h]
    | error e => cases e <;> simp [executeExpr, executeDefinedExpr, h]
  | selector x sel =>
    cases h : extract (Expr.selector x sel) d with
    | ok v => simp [executeExpr, executeDefinedExpr, h]
    | error e => cases e <;> simp [executeExpr, executeDefinedExpr, h]
  | indexE x i =>
    cases h : extract (Expr.indexE x i) d with
    | ok v => simp [executeExpr, executeDefinedExpr, h]
    | error e => cases e <;> simp [executeExpr, executeDefinedExpr, h]
  | basicLit k v => simp [executeExpr, executeDefinedExpr]
  | param x q => simp [executeExpr, executeDefinedExpr]
  | paren x => simp [executeExpr, executeDefinedExpr]
  | unary op x => simp [executeExpr, executeDefinedExpr]
  | binary x op y => simp [executeExpr, executeDefinedExpr]
  | condE c x y => simp [executeExpr, executeDefinedExpr]
  | call fn args => simp [executeExpr, executeDefinedExpr]
  | definedE a => simp [executeExpr, executeDefinedExpr]

/-- Claim C7 (counterexample): the claim's mechanism is wrong — the literal
`9223372036854775808` does not "parse as the positive value" at all:
`strconv.ParseInt(v, 0, 64)` rejects it as out of the 64-bit signed range
inside `executeBasicLit`, so unary negation never runs. -/
theorem claim_C7_counterexample :
    executeBasicLit .int "9223372036854775808" =
      .error (.errMsg "invalid AST: \"9223372036854775808\" is not an integer: strconv.ParseInt: parsing \"9223372036854775808\": value out of range") := by
  rfl

/-- Claim C7 (amended: the failure is `executeBasicLit`'s range error, not the
unary overflow check): executing `(minimum int64 literal as negated literal)`
fails — with the invalid-AST/out-of-range error produced while parsing the
positive literal, before unary negation is evaluated — and never yields the
minimum 64-bit value. -/
theorem claim_C7_theorem :
    Template.Execute
        ⟨"\x7b\x7b-9223372036854775808\x7d\x7d",
         .unary .sub (.basicLit .int "9223372036854775808"), false, []⟩
        (Value.vMap []) =
      .fail (.errMsg "failed to execute: \x7b\x7b-9223372036854775808\x7d\x7d: invalid AST: \"9223372036854775808\" is not an integer: strconv.ParseInt: parsing \"9223372036854775808\": value out of range") := by
  have hlit : executeBasicLit .int "9223372036854775808" =
      .error (.errMsg "invalid AST: \"9223372036854775808\" is not an integer: strconv.ParseInt: parsing \"9223372036854775808\": value out of range") := rfl
  unfold Template.Execute
  simp [executeExpr, hlit, Err.wrapf, Err.wrapPre]
  all_goals decide

/-! ## Claim C4 -/

/-- The stash invariant of claim C4: the stashed names are exactly
`func-0 .. func-(n-1)`, in insertion order. -/
def stashWF (st : FuncStash) : Prop :=
  st.map Prod.fst = (List.range st.length).map (fun i => "func-" ++ toString i)

/-- Claim C4: evaluating a `ParameterExpr` in re-serialisation mode stashes a
function value under the synthesised name `func-N` where `N` is the number of
previously stashed functions, returning `{{func-N}}` (or `'{{func-N}}'` when
quoted); the name sequence stays `func-0 ..` in insertion order; a
non-function value is marshalled to YAML text with the trailing newline
trimmed; and in normal mode the inner value is returned as-is. -/
theorem claim_C4_theorem (d : Value) (st st1 : FuncStash) (x : Expr) (q : Bool) (v : Value)
    (h : executeExpr true d st x = .ok (v, st1)) :
    (v.isFuncVal = true →
      executeExpr true d st (.param (some x) q) =
        .ok (.vStr (if q then "\x27\x7b\x7b" ++ ("func-" ++ toString st1.length) ++ "\x7d\x7d\x27"
                    else "\x7b\x7b" ++ ("func-" ++ toString st1.length) ++ "\x7d\x7d"),
             st1 ++ [("func-" ++ toString st1.length, v)])) ∧
    (v.isFuncVal = false →
      executeExpr true d st (.param (some x) q) =
        (match yamlMarshal v with
         | .ok b => .ok (.vStr (goTrimSuffix b "\n"), st1)
         | .error m => .fail (.errMsg m))) ∧
    (stashWF st1 →
      stashWF (st1.save v).2 ∧ (st1.save v).1 = "func-" ++ toString st1.length) ∧
    (∀ v0 st0, executeExpr false d st x = .ok (v0, st0) →
      executeExpr false d st (.param (some x) q) = .ok (v0, st0)) := by
  refine ⟨?_, ?_, ?_, ?_⟩
  · intro hf
    cases q <;> simp [executeExpr, h, hf, FuncStash.save]
  · intro hf
    cases hm : yamlMarshal v <;> simp [executeExpr, h, hf, hm]
  · intro hwf
    constructor
    · unfold stashWF FuncStash.save at *
      simp only [List.map_append, List.map_cons, List.map_nil, List.length_append,
        List.length_cons, List.length_nil]
      rw [List.range_succ, List.map_append, hwf]
      simp
    · rfl
  · intro v0 st0 h0
    simp [executeExpr, h0]

/-- Claim C4 witness: stashing the function bound to `f` yields `{{func-0}}`
and the one-entry stash; the string bound to `s` marshals to itself; in normal
mode the value passes through. -/
theorem claim_C4_witness :
    executeExpr true (Value.vMap [("f", .vFunc (.ret .vNil)), ("s", .vStr "hi")]) []
        (.param (some (.ident "f")) false) =
      .ok (.vStr ("\x7b\x7b" ++ ("func-" ++ toString (1 - 1)) ++ "\x7d\x7d"),
           [("func-" ++ toString (1 - 1), .vFunc (.ret .vNil))]) ∧
    executeExpr true (Value.vMap [("f", .vFunc (.ret .vNil)), ("s", .vStr "hi")]) []
        (.param (some (.ident "s")) false) =
      .ok (.vStr (goTrimSuffix "hi\n" "\n"), []) ∧
    executeExpr false (Value.vMap [("f", .vFunc (.ret .vNil)), ("s", .vStr "hi")]) []
        (.param (some (.ident "s")) false) =
      .ok (.vStr "hi", []) := by
  refine ⟨?_, ?_, ?_⟩
  · exact (claim_C4_theorem (Value.vMap [("f", .vFunc (.ret .vNil)), ("s", .vStr "hi")])
      [] [] (.ident "f") false (.vFunc (.ret .vNil))
      (by simp [executeExpr, extract, lookupName])).1 rfl
  · have h := (claim_C4_theorem (Value.vMap [("f", .vFunc (.ret .vNil)), ("s", .vStr "hi")])
      [] [] (.ident "s") false (Value.vStr "hi")
      (by simp [executeExpr, extract, lookupName])).2.1 rfl
    rw [h]
    simp [yamlMarshal, yamlLines, joinSep]
  · exact (claim_C4_theorem (Value.vMap [("f", .vFunc (.ret .vNil)), ("s", .vStr "hi")])
      [] [] (.ident "s") false (Value.vStr "hi")
      (by simp [executeExpr, extract, lookupName])).2.2.2 (Value.vStr "hi") []
      (by simp [executeExpr, extract, lookupName])

/-! ## Claim C6 -/

/-- The indent rule as claim C6 words it: every line of `str` after the first
— including empty lines — is prefixed with the space run matching `preStr`'s
final line. -/
def claimIndent (str preStr : String) : String :=
  let pad := String.mk (List.replicate ((splitOnChar preStr '\n').getLastD "").length ' ')
  match splitOnChar str '\n' with
  | [] => ""
  | h :: tl => h ++ String.join (tl.map (fun l => "\n" ++ pad ++ l))

/-- Claim C6 (counterexample): the source's `addIndent` leaves empty lines of
the multi-line text unprefixed (`if s != ""`), so "every line of S after the
first is prefixed" fails on `S = "x\n\ny"`, `P = "- "`: the code produces
`x\n\n  y` while the claim's rule produces `x\n  \n  y`, a different string. -/
theorem claim_C6_counterexample :
    addIndent true "x\n\ny" "- " = "x\n\n  y" ∧
    claimIndent "x\n\ny" "- " = "x\n  \n  y" ∧
    ("x\n\n  y" == "x\n  \n  y") = false := by
  refine ⟨by decide, by decide, by decide⟩

lemma head_writeLines (pad h : String) (tl : List String) :
    h ++ writeLines pad tl =
      joinSep "\n" (h :: tl.map (fun l => if l = "" then l else pad ++ l)) := by
  induction tl generalizing h with
  | nil => simp [writeLines, joinSep]
  | cons a tl ih =>
    have hjoin : joinSep "\n" (h :: (if a = "" then a else pad ++ a) ::
        tl.map (fun l => if l = "" then l else pad ++ l)) =
        h ++ "\n" ++ joinSep "\n" ((if a = "" then a else pad ++ a) ::
          tl.map (fun l => if l = "" then l else pad ++ l)) := rfl
    simp only [List.map_cons, hjoin, ← ih]
    by_cases ha : a = ""
    · simp [writeLines, ha, String.append_assoc]
    · simp [writeLines, ha, String.append_assoc]

/-- Claim C6 (amended: only the non-empty lines after the first receive the
prefix): in re-serialisation mode, `+` with a `ParameterExpr` as its right
operand concatenates `xs` with `addIndent`'s rewriting of `ys`; the rewriting
is the identity when `ys` has no newline or `xs` is empty; when it applies,
every NON-empty line of `ys` after the first is prefixed with the space run
matching `xs`'s final line while empty lines stay empty; with a
non-`ParameterExpr` right operand, or outside re-serialisation mode, the
operand is concatenated unchanged. -/
theorem claim_C6_theorem (d : Value) (st st1 st2 : FuncStash) (eX : Expr)
    (ey : Option Expr) (q : Bool) (xs ys : String)
    (hx : executeExpr true d st eX = .ok (.vStr xs, st1))
    (hy : executeExpr true d st1 (.param ey q) = .ok (.vStr ys, st2)) :
    executeExpr true d st (.binary eX .add (.param ey q)) =
      .ok (.vStr (xs ++ addIndent true ys xs), st2) ∧
    (containsRune ys '\n' = false ∨ xs = "" → addIndent true ys xs = ys) ∧
    (containsRune ys '\n' = true → xs ≠ "" →
      addIndent true ys xs =
        joinSep "\n"
          ((splitOnChar ys '\n').headD "" ::
            (splitOnChar ys '\n').tail.map (fun l =>
              if l = "" then l
              else String.mk
                (List.replicate ((splitOnChar xs '\n').getLastD "").length ' ') ++ l))) ∧
    (∀ ey2 : Expr, ey2.isParam = false →
      executeExpr true d st1 ey2 = .ok (.vStr ys, st2) →
      executeExpr true d st (.binary eX .add ey2) = .ok (.vStr (xs ++ ys), st2)) ∧
    (∀ st1b st2b xs2 ys2, executeExpr false d st eX = .ok (.vStr xs2, st1b) →
      executeExpr false d st1b (.param ey q) = .ok (.vStr ys2, st2b) →
      executeExpr false d st (.binary eX .add (.param ey q)) =
        .ok (.vStr (xs2 ++ ys2), st2b)) := by
  refine ⟨?_, ?_, ?_, ?_, ?_⟩
  · simp [executeExpr, hx, hy, binaryCore, Value.kind, equalV, comparableV,
      Expr.isParam, stringOps]
  · rintro (h | h)
    · simp [addIndent, h]
    · simp [addIndent, h]
  · intro hc hxe
    simp only [addIndent, if_true, hc, hxe]
    simp only [ne_eq, hxe, not_false_eq_true, and_true, if_true]
    cases hsplit : splitOnChar ys '\n' with
    | nil => simp [joinSep]
    | cons h tl => simp [head_writeLines]
  · intro ey2 hnp hy2
    simp [executeExpr, hx, hy2, binaryCore, Value.kind, equalV, comparableV,
      hnp, stringOps]
  · intro st1b st2b xs2 ys2 hx2 hy2
    simp [executeExpr, hx2, hy2, binaryCore, Value.kind, equalV, comparableV,
      Expr.isParam, stringOps]

/-- Claim C6 witness: concatenating the parameter-marshalled two-line mapping
`a: 1\nb: 2` onto the prefix `- ` aligns the second line under the first. -/
theorem claim_C6_witness :
    executeExpr true (Value.vMap [("m", .vMap [("a", .vStr "1"), ("b", .vStr "2")])]) []
        (.binary (.basicLit .str "- ") .add (.param (some (.ident "m")) false)) =
      .ok (.vStr ("- " ++ addIndent true "a: 1\nb: 2" "- "), []) ∧
    addIndent true "a: 1\nb: 2" "- " = "a: 1\n  b: 2" := by
  constructor
  · refine (claim_C6_theorem (Value.vMap [("m", .vMap [("a", .vStr "1"), ("b", .vStr "2")])])
      [] [] [] (.basicLit .str "- ") (some (.ident "m")) false "- " "a: 1\nb: 2"
      (by simp [executeExpr, executeBasicLit]) ?_).1
    simp [executeExpr, extract, lookupName, Value.isFuncVal, yamlMarshal, yamlLines,
      yamlMapLines, joinSep]
    decide
  · decide

/-! ## Claim C8: Go slice semantics of the byte-sequence `+`

`executeBinaryExpr` returns `append(xb, yb...)` for `[]byte + []byte`.  Go's
`append` reuses the left operand's backing array when its spare capacity
holds the appended bytes, writing them in place; the heap model below makes
that observable. -/

/-- A Go byte slice: backing array id, offset, length and capacity. -/
structure ByteSlice where
  arr : Nat
  off : Nat
  len : Nat
  cap : Nat
deriving DecidableEq, Repr

/-- The backing store: array id to contents. -/
abbrev Heap := List (List Nat)

def Heap.readArr (h : Heap) (i : Nat) : List Nat := h.getD i []

/-- The bytes visible through a slice. -/
def sliceBytes (h : Heap) (s : ByteSlice) : List Nat :=
  ((h.readArr s.arr).drop s.off).take s.len

/-- Overwrite `a` starting at `pos` with `ys`. -/
def writeAt (a : List Nat) (pos : Nat) (ys : List Nat) : List Nat :=
  a.take pos ++ ys ++ a.drop (pos + ys.length)

/-- Go's `append(xb, yb...)` on byte slices — the `+` case of
`executeBinaryExpr` for byte sequences: when the left slice's capacity holds
the result, the appended bytes are written into its backing array in place
(mutating every slice that shares the array); otherwise a fresh array is
allocated. -/
def goAppend (h : Heap) (x y : ByteSlice) : Heap × ByteSlice :=
  let xd := sliceBytes h x
  let yd := sliceBytes h y
  if x.len + yd.length ≤ x.cap then
    (h.set x.arr (writeAt (h.readArr x.arr) (x.off + x.len) yd),
     { x with len := x.len + yd.length })
  else
    (h ++ [xd ++ yd],
     { arr := h.length, off := 0, len := xd.length + yd.length, cap := xd.length + yd.length })

/-- Claim C8: evaluating `a + a` where `a` is the one-byte slice over the
backing array `[1, 2, 3]` (capacity 3) writes into the spare capacity: the
sibling slice `b` over the same array sees its bytes change from `[1, 2, 3]`
to `[1, 1, 3]` — the data tree is mutated. -/
theorem claim_C8_theorem :
    sliceBytes [[1, 2, 3]] ⟨0, 0, 3, 3⟩ = [1, 2, 3] ∧
    (goAppend [[1, 2, 3]] ⟨0, 0, 1, 3⟩ ⟨0, 0, 1, 3⟩).1 = [[1, 1, 3]] ∧
    sliceBytes (goAppend [[1, 2, 3]] ⟨0, 0, 1, 3⟩ ⟨0, 0, 1, 3⟩).1 ⟨0, 0, 3, 3⟩ = [1, 1, 3] ∧
    ([1, 1, 3] == [1, 2, 3]) = false := by
  refine ⟨by decide, by decide, by decide, by decide⟩

/-! ## Claim C9: the reporter's test summary -/

/-- `testSummary`: the three result lists (the mutex only serialises access). -/
structure TestSummary where
  passed : List String
  failed : List String
  skipped : List String
deriving DecidableEq, Repr

def newTestSummary : TestSummary := ⟨[], [], []⟩

/-- `testSummary.append`.  The three result strings
(`TestResultPassed.String()`, `TestResultFailed.String()`,
`TestResultSkipped.String()`) are defined outside the given files and are
taken as the parameters `rp`, `rf`, `rs`; the switch tries the cases in
order and does nothing on any other string. -/
def TestSummary.append (s : TestSummary) (rp rf rs : String)
    (testFileRelPath testResultString : String) : TestSummary :=
  if testResultString = rp then { s with passed := s.passed ++ [testFileRelPath] }
  else if testResultString = rf then { s with failed := s.failed ++ [testFileRelPath] }
  else if testResultString = rs then { s with skipped := s.skipped ++ [testFileRelPath] }
  else s

/-- `testSummary.failedFiles`: empty for no failures; otherwise the header
`Failed tests:` (set on the first iteration), one `\t- <file>` line each, and
a trailing blank line. -/
def TestSummary.failedFiles (s : TestSummary) : String :=
  if s.failed.length = 0 then ""
  else
    (s.failed.foldl
      (fun result f => (if result = "" then "Failed tests:\n" else result) ++
        "\t- " ++ f ++ "\n")
      "") ++ "\n"

/-- `fmt.Sprintf` applied to a format string with NO arguments, as
`failColor().Sprintf(s.failedFiles())` does: `%%` prints one percent, `%<c>`
prints the missing-argument note, a trailing `%` the no-verb note.  Verbs
with flags or widths are not modelled (no claim exercises them). -/
def sprintfAux : List Char → List Char
  | [] => []
  | c :: rest =>
    if c = '%' then
      match rest with
      | [] => "%!(NOVERB)".data
      | c2 :: rest2 =>
        if c2 = '%' then '%' :: sprintfAux rest2
        else '%' :: '!' :: c2 :: ("(MISSING)".data ++ sprintfAux rest2)
    else c :: sprintfAux rest

def sprintfNoArgs (s : String) : String := String.mk (sprintfAux s.data)

/-- The `fatih/color` wrapper: with colour, the text is wrapped in the SGR
escape for the attribute and the reset; the attribute-free object used when
`noColor` is set is modelled as the identity formatter. -/
def colorWrap (noColor : Bool) (code : String) (text : String) : String :=
  if noColor then text else "\x1b[" ++ code ++ "m" ++ text ++ "\x1b[0m"

/-- `testSummary.String`: the count header, then the (possibly coloured,
format-reinterpreted) failed-files block. -/
def TestSummary.render (s : TestSummary) (noColor : Bool) : String :=
  let totalText := toString (s.passed.length + s.failed.length + s.skipped.length) ++
    " tests run"
  let passedText := colorWrap noColor "32" (toString s.passed.length ++ " passed")
  let failedText := colorWrap noColor "91" (toString s.failed.length ++ " failed")
  let skippedText := colorWrap noColor "33" (toString s.skipped.length ++ " skipped")
  let failedFilesText := colorWrap noColor "91" (sprintfNoArgs s.failedFiles)
  "\n" ++ totalText ++ ": " ++ passedText ++ ", " ++ failedText ++ ", " ++ skippedText ++
    "\n\n" ++ failedFilesText

lemma strAppend_ne_empty {a : String} (b : String) (h : a ≠ "") : a ++ b ≠ "" := by
  intro hab
  apply h
  have hd := congrArg String.data hab
  rw [String.data_append] at hd
  have : a.data = [] := List.append_eq_nil.mp hd |>.1
  cases a
  simp_all

lemma foldl_failed_pre (l : List String) (acc : String) (h : acc ≠ "") :
    ∃ t, List.foldl
      (fun result f => (if result = "" then "Failed tests:\n" else result) ++
        "\t- " ++ f ++ "\n") acc l = acc ++ t := by
  induction l generalizing acc with
  | nil => exact ⟨"", (String.append_empty acc).symm⟩
  | cons f l ih =>
    have hstep : (if acc = "" then "Failed tests:\n" else acc) ++ "\t- " ++ f ++ "\n" =
        acc ++ "\t- " ++ f ++ "\n" := by rw [if_neg h]
    obtain ⟨t, ht⟩ := ih (acc ++ "\t- " ++ f ++ "\n")
      (strAppend_ne_empty _ (strAppend_ne_empty _ (strAppend_ne_empty _ h)))
    refine ⟨"\t- " ++ f ++ "\n" ++ t, ?_⟩
    rw [List.foldl_cons]
    show List.foldl _ ((if acc = "" then "Failed tests:\n" else acc) ++ "\t- " ++ f ++ "\n") l = _
    rw [hstep, ht]
    simp only [String.append_assoc]

lemma sprintfAux_cons_no_pct {c : Char} (hc : c ≠ '%') (m : List Char) :
    sprintfAux (c :: m) = c :: sprintfAux m := by
  rw [sprintfAux.eq_def]
  simp [hc]

lemma sprintfAux_no_pct_prefix (p : List Char) (hp : ∀ c ∈ p, c ≠ '%') (l : List Char) :
    sprintfAux (p ++ l) = p ++ sprintfAux l := by
  induction p with
  | nil => simp
  | cons c p ih =>
    have hc : c ≠ '%' := hp c (List.mem_cons_self c p)
    rw [List.cons_append, sprintfAux_cons_no_pct hc,
      ih (fun d hd => hp d (List.mem_cons_of_mem c hd)), List.cons_append]

lemma sprintfNoArgs_failed_prefix (r : String) :
    sprintfNoArgs ("Failed tests:\n" ++ r) = "Failed tests:\n" ++ sprintfNoArgs r := by
  unfold sprintfNoArgs
  rw [String.data_append, sprintfAux_no_pct_prefix _ (by decide)]
  rfl

/-- Claim C9: a result string other than the three recognised ones leaves the
summary unchanged; the header reports the sum of the three list lengths as
the number of tests run; and the `Failed tests:` block of the rendered
summary is empty exactly when the failed list is empty and otherwise starts
with `Failed tests:`. -/
theorem claim_C9_theorem (s : TestSummary) (rp rf rs p r : String) (nc : Bool) :
    (r ≠ rp → r ≠ rf → r ≠ rs → s.append rp rf rs p r = s) ∧
    (∃ rest, s.render nc =
      "\n" ++ toString (s.passed.length + s.failed.length + s.skipped.length) ++
        " tests run" ++ rest) ∧
    (s.failed = [] → sprintfNoArgs s.failedFiles = "") ∧
    (s.failed ≠ [] → ∃ t, sprintfNoArgs s.failedFiles = "Failed tests:\n" ++ t) ∧
    (∃ head, s.render nc = head ++ colorWrap nc "91" (sprintfNoArgs s.failedFiles)) := by
  refine ⟨?_, ?_, ?_, ?_, ?_⟩
  · intro h1 h2 h3
    simp [TestSummary.append, h1, h2, h3]
  · refine ⟨": " ++ colorWrap nc "32" (toString s.passed.length ++ " passed") ++ ", " ++
      colorWrap nc "91" (toString s.failed.length ++ " failed") ++ ", " ++
      colorWrap nc "33" (toString s.skipped.length ++ " skipped") ++ "\n\n" ++
      colorWrap nc "91" (sprintfNoArgs s.failedFiles), ?_⟩
    simp only [TestSummary.render, String.append_assoc]
  · intro h
    simp [TestSummary.failedFiles, h, sprintfNoArgs, sprintfAux]
  · intro h
    obtain ⟨f, fs, hf⟩ : ∃ f fs, s.failed = f :: fs := by
      cases hc : s.failed with
      | nil => exact absurd hc h
      | cons f fs => exact ⟨f, fs, rfl⟩
    have hne : ("Failed tests:\n" ++ "\t- " ++ f ++ "\n") ≠ "" :=
      strAppend_ne_empty _ (strAppend_ne_empty _ (strAppend_ne_empty _ (by decide)))
    obtain ⟨t, ht⟩ := foldl_failed_pre fs ("Failed tests:\n" ++ "\t- " ++ f ++ "\n") hne
    have hff : s.failedFiles =
        "Failed tests:\n" ++ ("\t- " ++ (f ++ ("\n" ++ (t ++ "\n")))) := by
      simp only [TestSummary.failedFiles, hf, List.length_cons]
      rw [if_neg (by simp)]
      rw [List.foldl_cons]
      show (List.foldl _ ((if ("" : String) = "" then "Failed tests:\n" else "") ++
        "\t- " ++ f ++ "\n") fs) ++ "\n" = _
      rw [show ((if ("" : String) = "" then "Failed tests:\n" else "") ++
        "\t- " ++ f ++ "\n") = "Failed tests:\n" ++ "\t- " ++ f ++ "\n" from by
          rw [if_pos rfl]]
      rw [ht]
      simp only [String.append_assoc]
    refine ⟨sprintfNoArgs ("\t- " ++ (f ++ ("\n" ++ (t ++ "\n")))), ?_⟩
    rw [hff, sprintfNoArgs_failed_prefix]
  · refine ⟨"\n" ++ (toString (s.passed.length + s.failed.length + s.skipped.length) ++
      " tests run") ++ ": " ++ colorWrap nc "32" (toString s.passed.length ++ " passed") ++
      ", " ++ colorWrap nc "91" (toString s.failed.length ++ " failed") ++ ", " ++
      colorWrap nc "33" (toString s.skipped.length ++ " skipped") ++ "\n\n", ?_⟩
    simp only [TestSummary.render, String.append_assoc]

/-- Claim C9 witness: on a summary with one passed and one failed test, an
unrecognised result string leaves the summary unchanged, the header counts 2
tests run, and the block starts with `Failed tests:`. -/
theorem claim_C9_witness :
    TestSummary.append ⟨["a"], ["b"], []⟩ "passed" "failed" "skipped" "p" "weird" =
      ⟨["a"], ["b"], []⟩ ∧
    (∃ rest, TestSummary.render ⟨["a"], ["b"], []⟩ true =
      "\n" ++ toString (2 : Nat) ++ " tests run" ++ rest) ∧
    (∃ t, sprintfNoArgs (TestSummary.failedFiles ⟨["a"], ["b"], []⟩) =
      "Failed tests:\n" ++ t) := by
  refine ⟨?_, ?_, ?_⟩
  · exact ( claim_C9_theorem ⟨["a"], ["b"], []⟩ "passed" "failed" "skipped" "p" "weird" true).1
      (by decide) (by decide) (by decide)
  · exact ( claim_C9_theorem ⟨["a"], ["b"], []⟩ "passed" "failed" "skipped" "p" "weird" true).2.1
  · exact ( claim_C9_theorem ⟨["a"], ["b"], []⟩ "passed" "failed" "skipped" "p" "weird"
      true).2.2.2.1 (by decide)

/-! ## Claim C10: gRPC status-code assertion -/

/-- `ExpectStatus` (`status` of the expectation). -/
structure ExpectStatus where
  code : String
  message : String
deriving DecidableEq, Repr

/-- The fields of `Expect` that `assertStatusCode` reads. -/
structure Expect where
  code : String
  status : ExpectStatus
deriving DecidableEq, Repr

/-- The gRPC status observed by the assertion: its code as a `uint32` (a nil
status reads as OK = 0), the message, and the pre-rendered details text
(`detailsString`). -/
structure GrpcStatus where
  code : Nat
  message : String
  detailsText : String
deriving DecidableEq, Repr

/-- `codes.Code.String()` of google.golang.org/grpc (external): the canonical
name for the 17 defined codes, `Code(<n>)` otherwise. -/
def codeString : Nat → String
  | 0 => "OK"
  | 1 => "Canceled"
  | 2 => "Unknown"
  | 3 => "InvalidArgument"
  | 4 => "DeadlineExceeded"
  | 5 => "NotFound"
  | 6 => "AlreadyExists"
  | 7 => "PermissionDenied"
  | 8 => "ResourceExhausted"
  | 9 => "FailedPrecondition"
  | 10 => "Aborted"
  | 11 => "OutOfRange"
  | 12 => "Unimplemented"
  | 13 => "Internal"
  | 14 => "Unavailable"
  | 15 => "DataLoss"
  | 16 => "Unauthenticated"
  | c => "Code(" ++ toString c ++ ")"

/-- `int(int32(code))`: the decimal form compares the code converted through
`int32`, which wraps values at `2^31`. -/
def int32cast (c : Nat) : Int :=
  if c < 2147483648 then (c : Int) else (c : Int) - 4294967296

/-- `Expect.assertStatusCode`: the expected code starts as `OK`, is replaced
by `e.Code` when non-empty, then by `e.Status.Code` when non-empty; the
assertion succeeds when the actual code's name or its decimal (int32)
representation equals the expected string, and otherwise reports the
mismatch. -/
def Expect.assertStatusCode (e : Expect) (sts : GrpcStatus) : Option String :=
  let expectedCode := "OK"
  let expectedCode := if e.code ≠ "" then e.code else expectedCode
  let expectedCode := if e.status.code ≠ "" then e.status.code else expectedCode
  if codeString sts.code = expectedCode then none
  else if toString (int32cast sts.code) = expectedCode then none
  else some ("expected code is \"" ++ expectedCode ++ "\" but got \"" ++
    codeString sts.code ++ "\": message=\"" ++ sts.message ++ "\": details=[ " ++
    sts.detailsText ++ " ]")

/-- Claim C10: the assertion succeeds exactly when the actual code's name or
its decimal (int32) representation equals the expected code string, where the
expected code is `e.Status.Code` when non-empty, else `e.Code` when
non-empty, else `OK`. -/
theorem claim_C10_theorem (e : Expect) (sts : GrpcStatus) :
    e.assertStatusCode sts = none ↔
      (codeString sts.code =
        (if e.status.code ≠ "" then e.status.code
         else if e.code ≠ "" then e.code else "OK") ∨
       toString (int32cast sts.code) =
        (if e.status.code ≠ "" then e.status.code
         else if e.code ≠ "" then e.code else "OK")) := by
  simp only [Expect.assertStatusCode]
  split_ifs with h1 h2 <;> simp_all

end Scenarigo
